import Mathlib

/-!
Shallow embedding of the news-ingestion pipeline of the repository:
`src/services/newsService.js` (normalization, admission gate, deduplication,
persistence, caching, reads), `src/services/newsScheduler.js` (cycle
coordinator), `src/websocket/socketHandler.js` (fanout publisher) and the
`string-similarity` npm dependency (Dice-coefficient title similarity, called
by `processAndDeduplicateNews`).

Conventions of the embedding: JavaScript strings are `String`, timestamps are
`Int` (epoch milliseconds), floating-point similarity scores are exact
rationals (`ℚ`), MongoDB is a list of stored articles threaded explicitly,
Redis is an explicit key-value state, and code that can throw returns
`Except`.  Fallible external effects (a Redis command failing, the transport
throwing during an emit) are modelled by explicit Boolean/Option failure
parameters, so that each `catch` in the source corresponds to a visible
branch here.
-/

/-- Article is the normalized news record built by the source adapters in
`fetchRSSNews` / `fetchGuardianNews` and stored by `saveNews` (Mongoose model
`News`).  `id` models the MongoDB `_id` used as the cache identifier;
`isActive` is the soft-delete flag (default `true` in the schema). -/
structure Article where
  id : String
  title : String
  summary : String
  source : String
  url : String
  publishedAt : Int
  category : String
  image : Option String
  sourceHash : String
  isActive : Bool
deriving DecidableEq, Repr

/-- Characters matched by the JavaScript regex `\s` (the whitespace class
used by `string-similarity`'s `replace(/\s+/g, '')`); the ASCII part, plus
the no-break space.  The remaining Unicode space separators never occur in
the data handled here. -/
def jsWhitespace (c : Char) : Bool :=
  c = ' ' ∨ c = '\t' ∨ c = '\n' ∨ c = '\r' ∨ c = '\x0b' ∨ c = '\x0c' ∨ c = ' '

/-- Embedding of JavaScript `String.prototype.toLowerCase` for the ASCII
range, as applied to titles in `processAndDeduplicateNews`. -/
def jsToLowerCase (s : String) : String :=
  String.mk (s.toList.map Char.toLower)

/-- Embedding of `first.replace(/\s+/g, '')` from
`stringSimilarity.compareTwoStrings`. -/
def removeWhitespace (l : List Char) : List Char :=
  l.filter (fun c => !(jsWhitespace c))

/-- Consecutive character pairs (`substring(i, i + 2)`) collected by
`stringSimilarity.compareTwoStrings`. -/
def bigrams : List Char → List (Char × Char)
  | a :: b :: rest => (a, b) :: bigrams (b :: rest)
  | _ => []

/-- Size of the multiset intersection of the two bigram collections: the
`intersectionSize` computed by `stringSimilarity.compareTwoStrings` via its
bigram count map. -/
def interSize (f s : List Char) : ℕ :=
  ((↑(bigrams f) : Multiset (Char × Char)) ∩ ↑(bigrams s)).card

/-- Embedding of `stringSimilarity.compareTwoStrings` (npm package
`string-similarity` v4, Sørensen–Dice coefficient): strip whitespace, return
1 on equality, 0 if either stripped string is shorter than 2, else
`2 * intersectionSize / (len₁ + len₂ - 2)`, here as an exact rational. -/
def compareTwoStrings (first second : String) : ℚ :=
  if removeWhitespace first.toList = removeWhitespace second.toList then 1
  else if (removeWhitespace first.toList).length < 2 ∨
      (removeWhitespace second.toList).length < 2 then 0
  else (2 * interSize (removeWhitespace first.toList) (removeWhitespace second.toList) : ℚ) /
    ((removeWhitespace first.toList).length + (removeWhitespace second.toList).length - 2)

/-- Inner loop of `processAndDeduplicateNews`: the candidate is flagged as a
duplicate when some already-accepted item's title is more than 0.8-similar
(case-insensitively) to the candidate's title.  The `break` in the source is
the short-circuiting of `List.any`. -/
def isDuplicate (processedItems : List Article) (item : Article) : Bool :=
  processedItems.any (fun existingItem =>
    decide ((4 : ℚ)/5 < compareTwoStrings (jsToLowerCase item.title) (jsToLowerCase existingItem.title)))

/-- Outer loop of `processAndDeduplicateNews` over the exact-deduplicated
items, threading the `processedItems` accepted so far: a non-duplicate is
appended to the accepted list, a duplicate is dropped. -/
def similarityFilter (processedItems : List Article) : List Article → List Article
  | [] => []
  | item :: rest =>
    if isDuplicate processedItems item then similarityFilter processedItems rest
    else item :: similarityFilter (processedItems ++ [item]) rest

/-- First phase of `processAndDeduplicateNews`: the `uniqueByHash` map keyed
by `sourceHash` with first-wins insertion; JavaScript `Map` preserves
insertion order, so iterating its values yields the first item of each hash
in arrival order.  `seen` is the set of keys already in the map. -/
def dedupByHash (seen : List String) : List Article → List Article
  | [] => []
  | item :: rest =>
    if item.sourceHash ∈ seen then dedupByHash seen rest
    else item :: dedupByHash (item.sourceHash :: seen) rest

/-- Embedding of `NewsService.processAndDeduplicateNews`: exact-key collapse
by `sourceHash`, then the title-similarity filter in arrival order. -/
def processAndDeduplicateNews (newsItems : List Article) : List Article :=
  similarityFilter [] (dedupByHash [] newsItems)

lemma interSize_comm (f s : List Char) : interSize f s = interSize s f := by
  unfold interSize
  have h : ((↑(bigrams f) : Multiset (Char × Char)) ∩ ↑(bigrams s)) =
      ((↑(bigrams s) : Multiset (Char × Char)) ∩ ↑(bigrams f)) := by
    ext x
    simp [Multiset.count_inter, Nat.min_comm]
  rw [h]

lemma compareTwoStrings_comm (a b : String) :
    compareTwoStrings a b = compareTwoStrings b a := by
  unfold compareTwoStrings
  rcases eq_or_ne (removeWhitespace a.toList) (removeWhitespace b.toList) with h | h
  · rw [h]
  · rw [if_neg h, if_neg (Ne.symm h), interSize_comm]
    by_cases h2 : (removeWhitespace a.toList).length < 2 ∨ (removeWhitespace b.toList).length < 2
    · rw [if_pos h2, if_pos (Or.symm h2)]
    · rw [if_neg h2, if_neg (fun hc => h2 (Or.symm hc))]
      ring_nf

/-- Branch of `compareTwoStrings` taken when the stripped strings differ and
both have length at least 2; used to evaluate the similarity on concrete
titles. -/
lemma compareTwoStrings_eq_div (a b : String)
    (h1 : removeWhitespace a.toList ≠ removeWhitespace b.toList)
    (h2 : ¬((removeWhitespace a.toList).length < 2 ∨ (removeWhitespace b.toList).length < 2)) :
    compareTwoStrings a b =
      (2 * interSize (removeWhitespace a.toList) (removeWhitespace b.toList) : ℚ) /
        ((removeWhitespace a.toList).length + (removeWhitespace b.toList).length - 2) := by
  unfold compareTwoStrings
  rw [if_neg h1, if_neg h2]

/-- C1: after exact-key collapsing, candidates are scanned in arrival order
and a candidate is rejected if and only if its title is more than
0.8-similar (case-insensitively) to the title of at least one
already-accepted item; consequently for two titles with similarity above 0.8
the earlier arrival survives and the later one is dropped, and reversing
arrival order reverses which one survives. -/
theorem near_duplicate_first_accepted_wins (a b : Article)
    (hsim : (4 : ℚ)/5 < compareTwoStrings (jsToLowerCase a.title) (jsToLowerCase b.title))
    (hhash : a.sourceHash ≠ b.sourceHash) :
    (∀ (accepted : List Article) (c : Article),
        isDuplicate accepted c = true ↔
          ∃ e ∈ accepted,
            (4 : ℚ)/5 < compareTwoStrings (jsToLowerCase c.title) (jsToLowerCase e.title)) ∧
    processAndDeduplicateNews [a, b] = [a] ∧
    processAndDeduplicateNews [b, a] = [b] := by
  refine ⟨?_, ?_, ?_⟩
  · intro accepted c
    simp [isDuplicate, List.any_eq_true]
  · have hd : dedupByHash [] [a, b] = [a, b] := by
      simp [dedupByHash, Ne.symm hhash]
    have hdup : isDuplicate [a] b = true := by
      simp only [isDuplicate, List.any_cons, List.any_nil, Bool.or_false, decide_eq_true_eq]
      rw [compareTwoStrings_comm]
      exact hsim
    unfold processAndDeduplicateNews
    rw [hd]
    simp only [similarityFilter, List.nil_append]
    rw [if_neg (show ¬(isDuplicate [] a = true) from by simp [isDuplicate]), if_pos hdup]
  · have hd : dedupByHash [] [b, a] = [b, a] := by
      simp [dedupByHash, hhash]
    have hdup : isDuplicate [b] a = true := by
      simp only [isDuplicate, List.any_cons, List.any_nil, Bool.or_false, decide_eq_true_eq]
      exact hsim
    unfold processAndDeduplicateNews
    rw [hd]
    simp only [similarityFilter, List.nil_append]
    rw [if_neg (show ¬(isDuplicate [] b = true) from by simp [isDuplicate]), if_pos hdup]

/-- Sample article used to instantiate the dedup theorems: the spec's
first-arriving title. -/
def senateArticle1 : Article :=
  { id := "id1", title := "Senate Passes New Budget Bill",
    summary := "A fairly long summary of the budget bill vote.",
    source := "BBC", url := "https://example.org/budget-1",
    publishedAt := 1700000000000, category := "politics", image := none,
    sourceHash := "hash-budget-1", isActive := true }

/-- Sample article used to instantiate the dedup theorems: the spec's
second-arriving near-duplicate title. -/
def senateArticle2 : Article :=
  { id := "id2", title := "Senate passes new budget bill today",
    summary := "Another long summary of the same budget bill vote.",
    source := "Reuters", url := "https://example.org/budget-2",
    publishedAt := 1700000100000, category := "politics", image := none,
    sourceHash := "hash-budget-2", isActive := true }

lemma senate_similarity :
    (4 : ℚ)/5 < compareTwoStrings (jsToLowerCase senateArticle1.title) (jsToLowerCase senateArticle2.title) := by
  rw [compareTwoStrings_eq_div _ _ (by decide) (by decide)]
  rw [show interSize (removeWhitespace (jsToLowerCase senateArticle1.title).toList)
      (removeWhitespace (jsToLowerCase senateArticle2.title).toList) = 24 from by decide]
  rw [show (removeWhitespace (jsToLowerCase senateArticle1.title).toList).length = 25 from by decide]
  rw [show (removeWhitespace (jsToLowerCase senateArticle2.title).toList).length = 30 from by decide]
  norm_num

/-- Witness for C1 on the spec's example titles (similarity 48/53 > 0.8):
whichever of the two arrives first survives. -/
theorem near_duplicate_first_accepted_wins_witness :
    processAndDeduplicateNews [senateArticle1, senateArticle2] = [senateArticle1] ∧
    processAndDeduplicateNews [senateArticle2, senateArticle1] = [senateArticle2] := by
  have h := near_duplicate_first_accepted_wins senateArticle1 senateArticle2
    senate_similarity (by decide)
  exact ⟨h.2.1, h.2.2⟩

lemma dedupByHash_sublist (seen : List String) (l : List Article) :
    (dedupByHash seen l).Sublist l := by
  induction l generalizing seen with
  | nil => simp [dedupByHash]
  | cons a rest ih =>
    rw [dedupByHash]
    by_cases h : a.sourceHash ∈ seen
    · rw [if_pos h]
      exact (ih seen).cons a
    · rw [if_neg h]
      exact (ih _).cons₂ a

lemma similarityFilter_sublist (acc : List Article) (l : List Article) :
    (similarityFilter acc l).Sublist l := by
  induction l generalizing acc with
  | nil => simp [similarityFilter]
  | cons a rest ih =>
    rw [similarityFilter]
    by_cases h : isDuplicate acc a = true
    · rw [if_pos h]
      exact (ih acc).cons a
    · rw [if_neg h]
      exact (ih _).cons₂ a

lemma dedupByHash_find (seen : List String) (l : List Article) :
    ∀ b ∈ dedupByHash seen l, b.sourceHash ∉ seen ∧
      l.find? (fun x => decide (x.sourceHash = b.sourceHash)) = some b := by
  induction l generalizing seen with
  | nil => simp [dedupByHash]
  | cons a rest ih =>
    intro b hb
    rw [dedupByHash] at hb
    by_cases h : a.sourceHash ∈ seen
    · rw [if_pos h] at hb
      obtain ⟨hns, hf⟩ := ih seen b hb
      have hne : a.sourceHash ≠ b.sourceHash := fun he => hns (he ▸ h)
      refine ⟨hns, ?_⟩
      rw [List.find?_cons_of_neg _ (by simp [hne]), hf]
    · rw [if_neg h] at hb
      rcases List.mem_cons.mp hb with rfl | hb'
      · exact ⟨h, by rw [List.find?_cons_of_pos _ (by simp)]⟩
      · obtain ⟨hns, hf⟩ := ih _ b hb'
        have hna : a.sourceHash ≠ b.sourceHash :=
          fun he => hns (List.mem_cons.mpr (Or.inl he.symm))
        have hseen : b.sourceHash ∉ seen := fun hs => hns (List.mem_cons_of_mem _ hs)
        refine ⟨hseen, ?_⟩
        rw [List.find?_cons_of_neg _ (by simp [hna]), hf]

lemma dedupByHash_covers (seen : List String) (l : List Article) :
    ∀ a ∈ l, a.sourceHash ∈ seen ∨
      ∃ b ∈ dedupByHash seen l, b.sourceHash = a.sourceHash := by
  induction l generalizing seen with
  | nil => simp
  | cons x rest ih =>
    intro a ha
    rw [dedupByHash]
    by_cases h : x.sourceHash ∈ seen
    · rw [if_pos h]
      rcases List.mem_cons.mp ha with rfl | ha'
      · exact Or.inl h
      · exact ih seen a ha'
    · rw [if_neg h]
      rcases List.mem_cons.mp ha with rfl | ha'
      · exact Or.inr ⟨a, List.mem_cons_self a _, rfl⟩
      · rcases ih (x.sourceHash :: seen) a ha' with hs | ⟨b, hb, he⟩
        · rcases List.mem_cons.mp hs with he | hs'
          · exact Or.inr ⟨x, List.mem_cons_self x _, he.symm⟩
          · exact Or.inl hs'
        · exact Or.inr ⟨b, List.mem_cons_of_mem _ hb, he⟩

lemma dedupByHash_pairwise (seen : List String) (l : List Article) :
    (dedupByHash seen l).Pairwise (fun x y => x.sourceHash ≠ y.sourceHash) := by
  induction l generalizing seen with
  | nil => simp [dedupByHash]
  | cons a rest ih =>
    rw [dedupByHash]
    by_cases h : a.sourceHash ∈ seen
    · rw [if_pos h]
      exact ih seen
    · rw [if_neg h]
      refine List.Pairwise.cons ?_ (ih _)
      intro b hb
      have hnot := (dedupByHash_find _ _ b hb).1
      exact fun he => hnot (List.mem_cons.mpr (Or.inl he.symm))

/-- C2: exact-duplicate collapsing keeps exactly the earliest item of each
`sourceHash` in batch-arrival order (`find?` returns the first match), the
keys of the collapsed batch are pairwise distinct, every hash of the input is
represented, and the dedup engine's overall output is a subsequence of the
input batch in original arrival order. -/
theorem exact_dedup_keeps_first_and_order (l : List Article) :
    (processAndDeduplicateNews l).Sublist l ∧
    (∀ a ∈ l, ∃ b ∈ dedupByHash [] l, b.sourceHash = a.sourceHash) ∧
    (∀ b ∈ dedupByHash [] l,
      l.find? (fun x => decide (x.sourceHash = b.sourceHash)) = some b) ∧
    (dedupByHash [] l).Pairwise (fun x y => x.sourceHash ≠ y.sourceHash) := by
  refine ⟨?_, ?_, ?_, ?_⟩
  · exact (similarityFilter_sublist [] _).trans (dedupByHash_sublist [] l)
  · intro a ha
    rcases dedupByHash_covers [] l a ha with hs | h
    · simp at hs
    · exact h
  · intro b hb
    exact (dedupByHash_find [] l b hb).2
  · exact dedupByHash_pairwise [] l

/-- Re-fetched copy of `senateArticle1` carrying the identical `sourceHash`
(identical title and link), as produced by a feed re-fetch. -/
def senateArticleRefetch : Article :=
  { senateArticle1 with id := "id3", source := "BBC" }

/-- Batch with an exact duplicate, used to instantiate the C2 theorem. -/
def exactDupBatch : List Article :=
  [senateArticle1, senateArticleRefetch, senateArticle2]

/-- Witness for C2: on a batch whose second element repeats the first hash,
the first occurrence is the one `find?` certifies, and the pipeline output is
a subsequence of the batch. -/
theorem exact_dedup_keeps_first_witness :
    exactDupBatch.find?
      (fun x => decide (x.sourceHash = senateArticle1.sourceHash)) = some senateArticle1 ∧
    (processAndDeduplicateNews exactDupBatch).Sublist exactDupBatch := by
  constructor
  · exact (exact_dedup_keeps_first_and_order exactDupBatch).2.2.1 senateArticle1 (by decide)
  · exact (exact_dedup_keeps_first_and_order exactDupBatch).1

/-- JavaScript truthiness of a string: every string except `""` is truthy. -/
def jsTruthyString (s : String) : Bool :=
  !(decide (s = ""))

/-- Embedding of `NewsService.isValidNewsItem`: the source checks the
truthiness of `title`, `summary`, `source`, `url` and `publishedAt`, then
`title.length > 10` and `summary.length > 20`.  `publishedAt` in the source
is always a `Date` object, and every object is truthy in JavaScript, so that
conjunct is the constant `true`. -/
def isValidNewsItem (item : Article) : Bool :=
  jsTruthyString item.title &&
  jsTruthyString item.summary &&
  jsTruthyString item.source &&
  jsTruthyString item.url &&
  true &&
  decide (10 < item.title.length) &&
  decide (20 < item.summary.length)

/-- Per-item admission filter of the source adapters: `fetchRSSNews` and
`fetchGuardianNews` push a normalized item onto the cycle batch only when
`isValidNewsItem` holds, so the batch handed to `processAndDeduplicateNews`
contains only admitted items. -/
def collectValid (items : List Article) : List Article :=
  items.filter isValidNewsItem

/-- C3: the admission gate accepts exactly when the length thresholds are
exceeded alongside the presence checks — `title.length = 10` is rejected,
`title.length = 11` with a summary longer than 20 (and the other required
fields present) is accepted — and items failing the gate never enter the
batch that reaches the dedup engine. -/
theorem admission_gate (i : Article) (l : List Article) :
    (i.title.length = 10 → isValidNewsItem i = false) ∧
    (i.title.length = 11 → 20 < i.summary.length → i.source ≠ "" → i.url ≠ "" →
      isValidNewsItem i = true) ∧
    (∀ j ∈ collectValid l, isValidNewsItem j = true) ∧
    (isValidNewsItem i = false → i ∉ collectValid l) := by
  refine ⟨?_, ?_, ?_, ?_⟩
  · intro h
    simp [isValidNewsItem, h]
  · intro h1 h2 h3 h4
    have ht : i.title ≠ "" := fun he => by simp [he] at h1
    have hs : i.summary ≠ "" := fun he => by rw [he] at h2; simp at h2
    simp [isValidNewsItem, jsTruthyString, ht, hs, h3, h4, h1, h2]
  · intro j hj
    exact (List.mem_filter.mp hj).2
  · intro hf hc
    have h := (List.mem_filter.mp hc).2
    rw [hf] at h
    exact Bool.false_ne_true h

/-- Article sitting exactly on the accepted side of both admission
thresholds: title length 11, summary length 21. -/
def boundaryOkItem : Article :=
  { id := "idb1", title := "elevenchars", summary := "twenty-one characters",
    source := "BBC", url := "https://example.org/b1",
    publishedAt := 1700000000000, category := "general", image := none,
    sourceHash := "hash-b1", isActive := true }

/-- Article on the rejected side of the title threshold: title length 10. -/
def boundaryShortItem : Article :=
  { id := "idb2", title := "tenchars10", summary := "twenty-one characters",
    source := "BBC", url := "https://example.org/b2",
    publishedAt := 1700000000000, category := "general", image := none,
    sourceHash := "hash-b2", isActive := true }

/-- Witness for C3 at the boundary: length-11 title accepted, length-10 title
rejected. -/
theorem admission_gate_witness :
    isValidNewsItem boundaryOkItem = true ∧ isValidNewsItem boundaryShortItem = false := by
  constructor
  · exact (admission_gate boundaryOkItem []).2.1 (by decide) (by decide) (by decide) (by decide)
  · exact (admission_gate boundaryShortItem []).1 (by decide)

/-- Lookup table `categoryMap` of `NewsService.mapCategory`. -/
def categoryMap : List (String × String) :=
  [("tech", "technology"), ("sci", "science"),
   ("entertainment", "entertainment"), ("sport", "sports")]

/-- Embedding of `NewsService.mapCategory`: the object lookup
`categoryMap[category] || category` — the mapped value when the label is a
key of the table, otherwise the literal label itself (every mapped value is
nonempty, so the JavaScript `||` never falls through on a hit). -/
def mapCategory (category : String) : String :=
  match categoryMap.find? (fun e => decide (e.1 = category)) with
  | some e => e.2
  | none => category

/-- C4 counterexample: the label "faith" is outside the lookup table, and
`mapCategory` maps it to itself, not to `general` — refuting the claim that
every unmapped label normalizes to `general`. -/
theorem mapCategory_unmapped_not_general :
    mapCategory "faith" = "faith" ∧ mapCategory "faith" ≠ "general" := by
  constructor <;> decide

/-- C4 (amended): a source topic label outside the fixed lookup table is
mapped to the literal label itself (the `|| category` fallback of
`mapCategory`), not to `general`. -/
theorem mapCategory_unmapped_is_identity (c : String)
    (h : c ∉ ["tech", "sci", "entertainment", "sport"]) :
    mapCategory c = c := by
  simp only [List.mem_cons, List.not_mem_nil, or_false, not_or] at h
  obtain ⟨h1, h2, h3, h4⟩ := h
  have hf : categoryMap.find? (fun e => decide (e.1 = c)) = none := by
    apply List.find?_eq_none.mpr
    intro e he
    simp only [categoryMap, List.mem_cons, List.not_mem_nil, or_false] at he
    rcases he with rfl | rfl | rfl | rfl
    · simp [Ne.symm h1]
    · simp [Ne.symm h2]
    · simp [Ne.symm h3]
    · simp [Ne.symm h4]
  unfold mapCategory
  rw [hf]

/-- Witness for the amended C4 on the unmapped label "opinion". -/
theorem mapCategory_unmapped_is_identity_witness : mapCategory "opinion" = "opinion" :=
  mapCategory_unmapped_is_identity "opinion" (by decide)

/-- Value stored at a Redis list key: the elements (head = most recently
pushed) and the key's time-to-live in seconds, `none` when no expiry is
set. -/
structure RedisList where
  items : List String
  ttl : Option Nat
deriving DecidableEq, Repr

/-- State of the Redis recency cache (`src/config/redis.js` client): string
keys written by `setEx` (serialized article together with its expiry, the
JSON round-trip being modelled as the identity) and list keys written by
`lPush`/`expire`/`lTrim`.  Both association lists are read through `find?`,
so prepending a binding shadows any older binding for the same key and
models an in-place update. -/
structure RedisState where
  kv : List (String × Article × Nat)
  lists : List (String × RedisList)
deriving DecidableEq, Repr

/-- Empty cache. -/
def emptyRedis : RedisState :=
  { kv := [], lists := [] }

/-- Lookup of a string key (`redis.get`). -/
def kvGet (st : RedisState) (key : String) : Option Article :=
  (st.kv.find? (fun e => decide (e.1 = key))).map (fun e => e.2.1)

/-- Lookup of a list key. -/
def listsGet (st : RedisState) (key : String) : Option RedisList :=
  (st.lists.find? (fun e => decide (e.1 = key))).map Prod.snd

/-- Bind a list key (shadowing any previous binding). -/
def setListKey (st : RedisState) (key : String) (rl : RedisList) : RedisState :=
  { st with lists := (key, rl) :: st.lists }

/-- `redis.setEx key seconds value`: bind the string key to the serialized
value with the given expiry. -/
def rSetEx (st : RedisState) (key : String) (seconds : Nat) (value : Article) : RedisState :=
  { st with kv := (key, value, seconds) :: st.kv }

/-- `redis.lPush key v`: prepend to the list at the key; a missing key is
created without an expiry; an existing key keeps its expiry. -/
def rLPush (st : RedisState) (key v : String) : RedisState :=
  match listsGet st key with
  | some rl => setListKey st key { rl with items := v :: rl.items }
  | none => setListKey st key { items := [v], ttl := none }

/-- `redis.expire key seconds`: set the expiry of an existing key; a missing
key is untouched. -/
def rExpire (st : RedisState) (key : String) (seconds : Nat) : RedisState :=
  match listsGet st key with
  | some rl => setListKey st key { rl with ttl := some seconds }
  | none => st

/-- `redis.lTrim key start stop` for non-negative indices: keep only the
elements with indices `start .. stop`, the head being index 0; a missing key
is untouched. -/
def rLTrim (st : RedisState) (key : String) (start stop : Nat) : RedisState :=
  match listsGet st key with
  | some rl =>
    setListKey st key { rl with items := (rl.items.drop start).take (stop + 1 - start) }
  | none => st

/-- `redis.lRange key start stop` for non-negative indices: the slice of the
list at the key, empty when the key is missing. -/
def rLRange (st : RedisState) (key : String) (start stop : Nat) : List String :=
  match listsGet st key with
  | some rl => (rl.items.drop start).take (stop + 1 - start)
  | none => []

/-- Embedding of `NewsService.cacheNews` (effects in source order): cache the
item under `news:<id>` with a 1-hour expiry, `lPush` the id onto the
per-category list and `expire` that list for 1 hour, `lPush` the id onto
`news:latest` and `lTrim` `news:latest` to its first 100 entries.  The
source sets no expiry on `news:latest` and never trims the per-category
list. -/
def cacheNews (news : Article) (st : RedisState) : RedisState :=
  rLTrim
    (rLPush
      (rExpire
        (rLPush (rSetEx st ("news:" ++ news.id) 3600 news)
          ("news:category:" ++ news.category) news.id)
        ("news:category:" ++ news.category) 3600)
      "news:latest" news.id)
    "news:latest" 0 99

lemma listsGet_setListKey_same (st : RedisState) (key : String) (rl : RedisList) :
    listsGet (setListKey st key rl) key = some rl := by
  simp [listsGet, setListKey, List.find?]

lemma listsGet_setListKey_other (st : RedisState) (key k' : String) (rl : RedisList)
    (h : k' ≠ key) : listsGet (setListKey st key rl) k' = listsGet st k' := by
  simp [listsGet, setListKey, List.find?, Ne.symm h]

lemma listsGet_rSetEx (st : RedisState) (key k' : String) (seconds : Nat) (v : Article) :
    listsGet (rSetEx st key seconds v) k' = listsGet st k' := rfl

lemma listsGet_rLPush_other (st : RedisState) (key v k' : String) (h : k' ≠ key) :
    listsGet (rLPush st key v) k' = listsGet st k' := by
  unfold rLPush
  cases listsGet st key <;> exact listsGet_setListKey_other _ _ _ _ h

lemma listsGet_rExpire_other (st : RedisState) (key k' : String) (seconds : Nat)
    (h : k' ≠ key) : listsGet (rExpire st key seconds) k' = listsGet st k' := by
  unfold rExpire
  cases listsGet st key
  · rfl
  · exact listsGet_setListKey_other _ _ _ _ h

lemma listsGet_rLTrim_other (st : RedisState) (key k' : String) (start stop : Nat)
    (h : k' ≠ key) : listsGet (rLTrim st key start stop) k' = listsGet st k' := by
  unfold rLTrim
  cases listsGet st key
  · rfl
  · exact listsGet_setListKey_other _ _ _ _ h

lemma listsGet_rLPush_same (st : RedisState) (key v : String) :
    listsGet (rLPush st key v) key =
      some { items := v :: ((listsGet st key).elim [] RedisList.items),
             ttl := (listsGet st key).elim none RedisList.ttl } := by
  unfold rLPush
  cases h : listsGet st key <;> simp [listsGet_setListKey_same]

lemma listsGet_rExpire_same (st : RedisState) (key : String) (seconds : Nat) :
    listsGet (rExpire st key seconds) key =
      (listsGet st key).map (fun rl => { rl with ttl := some seconds }) := by
  unfold rExpire
  cases h : listsGet st key
  · simp [h]
  · simp [listsGet_setListKey_same]

lemma listsGet_rLTrim_same (st : RedisState) (key : String) (start stop : Nat) :
    listsGet (rLTrim st key start stop) key =
      (listsGet st key).map
        (fun rl => { rl with items := (rl.items.drop start).take (stop + 1 - start) }) := by
  unfold rLTrim
  cases h : listsGet st key
  · simp [h]
  · simp [listsGet_setListKey_same]

lemma categoryKey_ne_latest (c : String) : "news:category:" ++ c ≠ "news:latest" := by
  intro h
  have hlen := congrArg String.length h
  rw [String.length_append] at hlen
  have h14 : ("news:category:" : String).length = 14 := rfl
  have h11 : ("news:latest" : String).length = 11 := rfl
  omega

/-- Invariant maintained by the recency cache on `news:latest`: at most 100
ids, never an expiry. -/
def latestBounded (st : RedisState) : Prop :=
  ∀ rl, listsGet st "news:latest" = some rl → rl.items.length ≤ 100 ∧ rl.ttl = none

/-- Invariant maintained by the recency cache on the per-category lists: an
expiry of 3600 seconds is always set. -/
def categoryExpires (st : RedisState) : Prop :=
  ∀ c rl, listsGet st ("news:category:" ++ c) = some rl → rl.ttl = some 3600

lemma cacheNews_preserves_inv (st : RedisState) (n : Article)
    (hlat : latestBounded st) (hcat : categoryExpires st) :
    latestBounded (cacheNews n st) ∧ categoryExpires (cacheNews n st) := by
  constructor
  · intro rl hrl
    unfold cacheNews at hrl
    rw [listsGet_rLTrim_same, listsGet_rLPush_same,
      listsGet_rExpire_other _ _ _ _ (Ne.symm (categoryKey_ne_latest n.category)),
      listsGet_rLPush_other _ _ _ _ (Ne.symm (categoryKey_ne_latest n.category)),
      listsGet_rSetEx] at hrl
    cases h0 : listsGet st "news:latest" with
    | none =>
      rw [h0] at hrl
      simp at hrl
      cases hrl
      exact ⟨by simp, rfl⟩
    | some rl0 =>
      rw [h0] at hrl
      obtain ⟨hlen0, httl0⟩ := hlat rl0 h0
      simp at hrl
      cases hrl
      constructor
      · simp only [List.length_cons, List.length_take]
        omega
      · exact httl0
  · intro c rl hrl
    unfold cacheNews at hrl
    rw [listsGet_rLTrim_other _ _ _ _ _ (categoryKey_ne_latest c),
      listsGet_rLPush_other _ _ _ _ (categoryKey_ne_latest c)] at hrl
    by_cases hc : ("news:category:" ++ c) = ("news:category:" ++ n.category)
    · rw [hc, listsGet_rExpire_same] at hrl
      cases h2 : listsGet
          (rLPush (rSetEx st ("news:" ++ n.id) 3600 n)
            ("news:category:" ++ n.category) n.id)
          ("news:category:" ++ n.category) with
      | none =>
        rw [h2] at hrl
        simp at hrl
      | some rl2 =>
        rw [h2] at hrl
        simp at hrl
        cases hrl
        rfl
    · rw [listsGet_rExpire_other _ _ _ _ hc, listsGet_rLPush_other _ _ _ _ hc,
        listsGet_rSetEx] at hrl
      exact hcat c rl hrl

lemma cacheNews_foldl_inv (writes : List Article) :
    ∀ st : RedisState, latestBounded st → categoryExpires st →
      latestBounded (writes.foldl (fun acc n => cacheNews n acc) st) ∧
      categoryExpires (writes.foldl (fun acc n => cacheNews n acc) st) := by
  induction writes with
  | nil => intro st h1 h2; exact ⟨h1, h2⟩
  | cons w rest ih =>
    intro st h1 h2
    obtain ⟨h1', h2'⟩ := cacheNews_preserves_inv st w h1 h2
    exact ih _ h1' h2'

lemma cacheNews_category_push (st : RedisState) (n : Article) :
    listsGet (cacheNews n st) ("news:category:" ++ n.category) =
      some (RedisList.mk
        (n.id :: ((listsGet st ("news:category:" ++ n.category)).elim [] RedisList.items))
        (some 3600)) := by
  unfold cacheNews
  rw [listsGet_rLTrim_other _ _ _ _ _ (categoryKey_ne_latest n.category),
    listsGet_rLPush_other _ _ _ _ (categoryKey_ne_latest n.category),
    listsGet_rExpire_same, listsGet_rLPush_same, listsGet_rSetEx]
  simp

lemma cacheNews_latest_ttl (st : RedisState) (n : Article) :
    (listsGet (cacheNews n st) "news:latest").map RedisList.ttl =
      some ((listsGet st "news:latest").elim none RedisList.ttl) := by
  unfold cacheNews
  rw [listsGet_rLTrim_same, listsGet_rLPush_same,
    listsGet_rExpire_other _ _ _ _ (Ne.symm (categoryKey_ne_latest n.category)),
    listsGet_rLPush_other _ _ _ _ (Ne.symm (categoryKey_ne_latest n.category)),
    listsGet_rSetEx]
  simp

lemma category_replicate_length (k : Nat) (n : Article) :
    ∀ st : RedisState,
      ((listsGet ((List.replicate k n).foldl (fun acc m => cacheNews m acc) st)
          ("news:category:" ++ n.category)).elim [] RedisList.items).length =
        k + ((listsGet st ("news:category:" ++ n.category)).elim [] RedisList.items).length := by
  induction k with
  | zero => intro st; simp
  | succ k ih =>
    intro st
    rw [List.replicate_succ, List.foldl_cons, ih (cacheNews n st), cacheNews_category_push]
    have he : ∀ (l : List String) (t : Option Nat),
        (some (RedisList.mk l t)).elim ([] : List String) RedisList.items = l := fun _ _ => rfl
    rw [he, List.length_cons]
    omega

/-- C6 counterexample: writing the same article 101 times to an empty cache
leaves the per-category list `news:category:general` with 101 entries (it is
never trimmed), and leaves `news:latest` with no expiry set — refuting both
the claimed 100-entry bound on the per-topic list and the claimed 1-hour
time-to-live on the latest list. -/
theorem recency_cache_counterexample :
    ((listsGet ((List.replicate 101 boundaryOkItem).foldl
        (fun st n => cacheNews n st) emptyRedis) ("news:category:" ++ "general")).elim []
      RedisList.items).length = 101 ∧
    ((listsGet ((List.replicate 101 boundaryOkItem).foldl
        (fun st n => cacheNews n st) emptyRedis) "news:latest").map
      RedisList.ttl) = some none := by
  constructor
  · have h := category_replicate_length 101 boundaryOkItem emptyRedis
    have hg : boundaryOkItem.category = "general" := rfl
    rw [hg] at h
    rw [h]
    simp [listsGet, emptyRedis]
  · have hsplit : List.replicate 101 boundaryOkItem =
        List.replicate 100 boundaryOkItem ++ [boundaryOkItem] := by
      rw [← List.replicate_succ']
    rw [hsplit, List.foldl_append, List.foldl_cons, List.foldl_nil, cacheNews_latest_ttl]
    have hb := (cacheNews_foldl_inv (List.replicate 100 boundaryOkItem) emptyRedis
      (by intro rl hrl; simp [listsGet, emptyRedis] at hrl)
      (by intro c rl hrl; simp [listsGet, emptyRedis] at hrl)).1
    cases h : listsGet ((List.replicate 100 boundaryOkItem).foldl
        (fun acc m => cacheNews m acc) emptyRedis) "news:latest" with
    | none => simp
    | some rl0 =>
      have he : (some rl0).elim none RedisList.ttl = rl0.ttl := rfl
      rw [he, (hb rl0 h).2]

/-- C6 (amended): after every sequence of cache writes starting from an empty
cache, the global `news:latest` list holds at most 100 ids (oldest trimmed
by `lTrim`) but carries no time-to-live, while every per-topic list carries
the 1-hour time-to-live but is not length-bounded. -/
theorem recency_cache_amended (writes : List Article) :
    latestBounded (writes.foldl (fun st n => cacheNews n st) emptyRedis) ∧
    categoryExpires (writes.foldl (fun st n => cacheNews n st) emptyRedis) := by
  refine cacheNews_foldl_inv writes emptyRedis ?_ ?_
  · intro rl hrl
    simp [listsGet, emptyRedis] at hrl
  · intro c rl hrl
    simp [listsGet, emptyRedis] at hrl

/-- Witness for the amended C6 after a single write: `news:latest` holds one
id within the bound and no expiry, the per-category list has the 1-hour
expiry. -/
theorem recency_cache_amended_witness :
    listsGet ([boundaryOkItem].foldl (fun st n => cacheNews n st) emptyRedis)
      "news:latest" = some { items := ["idb1"], ttl := none } ∧
    ({ items := ["idb1"], ttl := none } : RedisList).items.length ≤ 100 ∧
    listsGet ([boundaryOkItem].foldl (fun st n => cacheNews n st) emptyRedis)
      ("news:category:" ++ "general") = some { items := ["idb1"], ttl := some 3600 } := by
  refine ⟨by decide, ?_, by decide⟩
  exact ((recency_cache_amended [boundaryOkItem]).1
    { items := ["idb1"], ttl := none } (by decide)).1

/-- Existence check of `saveNews`:
`News.findOne({$or: [{url}, {sourceHash}]})` succeeds exactly when some
stored article matches the candidate's `url` OR `sourceHash`. -/
def existsMatch (db : List Article) (n : Article) : Bool :=
  db.any (fun e => decide (e.url = n.url) || decide (e.sourceHash = n.sourceHash))

/-- Result of one `saveNews` call: the stored articles after the call, the
cache state after the call, and `savedNews` — the candidates newly inserted,
in processing order. -/
structure SaveResult where
  db : List Article
  cache : RedisState
  saved : List Article
deriving DecidableEq, Repr

/-- Write path of `cacheNews` as called from `saveNews`: `cacheNews` has its
own `try`/`catch` that swallows any Redis error, so a failing cache write
leaves the state unchanged and never propagates; `cacheFails` selects the
failing run. -/
def cacheNewsCaught (cacheFails : Bool) (news : Article) (st : RedisState) : RedisState :=
  if cacheFails then st else cacheNews news st

/-- Embedding of `NewsService.saveNews`: for each candidate in order, skip it
when a stored article already matches on `url` or `sourceHash`, otherwise
insert it, append it to `savedNews` and write it through to the cache.  The
final WebSocket broadcast of `savedNews` is modelled separately by
`broadcastNews`. -/
def saveNews (cacheFails : Bool) (db : List Article) (cache : RedisState) :
    List Article → SaveResult
  | [] => ⟨db, cache, []⟩
  | n :: rest =>
    if existsMatch db n then saveNews cacheFails db cache rest
    else
      ⟨(saveNews cacheFails (db ++ [n]) (cacheNewsCaught cacheFails n cache) rest).db,
       (saveNews cacheFails (db ++ [n]) (cacheNewsCaught cacheFails n cache) rest).cache,
       n :: (saveNews cacheFails (db ++ [n]) (cacheNewsCaught cacheFails n cache) rest).saved⟩

lemma saveNews_db_eq (cf : Bool) (items : List Article) :
    ∀ (db : List Article) (cache : RedisState),
      (saveNews cf db cache items).db = db ++ (saveNews cf db cache items).saved := by
  induction items with
  | nil => intro db cache; simp [saveNews]
  | cons n rest ih =>
    intro db cache
    by_cases h : existsMatch db n = true
    · simp only [saveNews, if_pos h]
      exact ih db cache
    · simp only [saveNews, if_neg h]
      rw [ih (db ++ [n]) (cacheNewsCaught cf n cache)]
      simp

lemma saveNews_saved_sublist (cf : Bool) (items : List Article) :
    ∀ (db : List Article) (cache : RedisState),
      (saveNews cf db cache items).saved.Sublist items := by
  induction items with
  | nil => intro db cache; simp [saveNews]
  | cons n rest ih =>
    intro db cache
    by_cases h : existsMatch db n = true
    · simp only [saveNews, if_pos h]
      exact (ih db cache).cons n
    · simp only [saveNews, if_neg h]
      exact (ih _ _).cons₂ n

/-- C5: the store gateway inserts a post-dedup candidate exactly when no
already-stored article matches on `canonicalUrl` OR `exactKey`; the new
store contents are the old ones plus exactly the reported `savedNews`
subset of the candidates; and two candidates sharing a `canonicalUrl` (even
with different `exactKey`s) yield exactly one stored article, the first. -/
theorem store_gateway_at_most_once (cf : Bool) (db : List Article)
    (cache : RedisState) (items : List Article) :
    (saveNews cf db cache items).db = db ++ (saveNews cf db cache items).saved ∧
    (saveNews cf db cache items).saved.Sublist items ∧
    (∀ a b : Article, a.url = b.url → existsMatch db a = false → existsMatch db b = false →
      (saveNews cf db cache [a, b]).db = db ++ [a] ∧
      (saveNews cf db cache [a, b]).saved = [a]) := by
  refine ⟨saveNews_db_eq cf items db cache, saveNews_saved_sublist cf items db cache, ?_⟩
  intro a b hurl ha hb
  have hmb : existsMatch (db ++ [a]) b = true := by
    simp [existsMatch, List.any_append, hurl]
  constructor
  · simp [saveNews, ha, hmb]
  · simp [saveNews, ha, hmb]

/-- First candidate of the C5 witness: a fresh url and hash. -/
def dupUrlFirst : Article :=
  { id := "idu1", title := "Parliament Votes On Climate Measures",
    summary := "A long enough summary about the climate measures vote.",
    source := "BBC", url := "https://example.org/same-story",
    publishedAt := 1700000200000, category := "politics", image := none,
    sourceHash := "hash-u1", isActive := true }

/-- Second candidate of the C5 witness: same url as `dupUrlFirst`, different
hash. -/
def dupUrlSecond : Article :=
  { id := "idu2", title := "Parliament votes on climate measures today",
    summary := "Another long enough summary about the same vote.",
    source := "Reuters", url := "https://example.org/same-story",
    publishedAt := 1700000300000, category := "politics", image := none,
    sourceHash := "hash-u2", isActive := true }

/-- Witness for C5: inserting two articles with the same url (different
hashes) into an empty store persists exactly the first. -/
theorem store_gateway_at_most_once_witness :
    (saveNews false [] emptyRedis [dupUrlFirst, dupUrlSecond]).db = [] ++ [dupUrlFirst] ∧
    (saveNews false [] emptyRedis [dupUrlFirst, dupUrlSecond]).saved = [dupUrlFirst] :=
  (store_gateway_at_most_once false [] emptyRedis [dupUrlFirst, dupUrlSecond]).2.2
    dupUrlFirst dupUrlSecond rfl (by decide) (by decide)

lemma saveNews_ignores_cacheFails (items : List Article) :
    ∀ (db : List Article) (c1 c2 : RedisState),
      (saveNews true db c1 items).db = (saveNews false db c2 items).db ∧
      (saveNews true db c1 items).saved = (saveNews false db c2 items).saved := by
  induction items with
  | nil => intro db c1 c2; exact ⟨rfl, rfl⟩
  | cons n rest ih =>
    intro db c1 c2
    by_cases h : existsMatch db n = true
    · simp only [saveNews, if_pos h]
      exact ih db c1 c2
    · simp only [saveNews, if_neg h]
      obtain ⟨h1, h2⟩ := ih (db ++ [n]) (cacheNewsCaught true n c1) (cacheNewsCaught false n c2)
      exact ⟨h1, by rw [h2]⟩

/-- Database read of `getLatestNews` when the cache misses:
`News.find({isActive: true}).sort({publishedAt: -1}).limit(limit).skip(offset)`.
MongoDB applies the sort, then the skip, then the limit, regardless of the
call order of `limit`/`skip` on the query builder. -/
def dbLatestQuery (db : List Article) (limit offset : Nat) : List Article :=
  ((((db.filter (fun n => n.isActive)).mergeSort
    (fun a b => decide (b.publishedAt ≤ a.publishedAt))).drop offset).take limit)

/-- Database read of `getNewsByCategory`:
`News.find({category, isActive: true})` with the same sort/skip/limit. -/
def dbCategoryQuery (db : List Article) (category : String) (limit offset : Nat) :
    List Article :=
  ((((db.filter (fun n => decide (n.category = category) && n.isActive)).mergeSort
    (fun a b => decide (b.publishedAt ≤ a.publishedAt))).drop offset).take limit)

/-- Embedding of `NewsService.getLatestNews`.  `redis` is `getRedisClient()`
(`none` when no client is connected); `cacheFails` selects a run in which a
Redis command throws.  The source's `try`/`catch` logs and RETHROWS, so a
thrown cache error reaches the caller as `Except.error`; only an absent
client or an unpopulated cache falls through to the database query.  The
cache path reads the id slice of `news:latest`, resolves each id through
`news:<id>` and keeps the hits (`filter(Boolean)`), returning them when any
id and any hit exist. -/
def getLatestNews : Option RedisState → Bool → List Article → Nat → Nat →
    Except String (List Article)
  | none, _, db, limit, offset => Except.ok (dbLatestQuery db limit offset)
  | some _, true, _, _, _ => Except.error "Redis command failed"
  | some st, false, db, limit, offset =>
    if 0 < (rLRange st "news:latest" offset (offset + limit - 1)).length then
      if 0 < ((rLRange st "news:latest" offset (offset + limit - 1)).filterMap
          (fun id => kvGet st ("news:" ++ id))).length then
        Except.ok ((rLRange st "news:latest" offset (offset + limit - 1)).filterMap
          (fun id => kvGet st ("news:" ++ id)))
      else Except.ok (dbLatestQuery db limit offset)
    else Except.ok (dbLatestQuery db limit offset)

/-- Embedding of `NewsService.getNewsByCategory`: although the Redis client
is in scope in the source module, the function body queries the database
directly and never touches the recency cache — the `redis` parameter is the
ambient client, unused exactly as in the source. -/
def getNewsByCategory (redis : Option RedisState) (db : List Article)
    (category : String) (limit offset : Nat) : Except String (List Article) :=
  Except.ok (dbCategoryQuery db category limit offset)

/-- Article placed only in the recency cache for the read-path
counterexamples. -/
def cachedTechArticle : Article :=
  { id := "idc1", title := "Chip Makers Announce New Factories",
    summary := "A long summary about new semiconductor factories.",
    source := "BBC", url := "https://example.org/chips",
    publishedAt := 1700000400000, category := "technology", image := none,
    sourceHash := "hash-c1", isActive := true }

/-- Article placed only in the durable store for the read-path
counterexamples. -/
def storedTechArticle : Article :=
  { id := "idc2", title := "Browser Vendors Ship Privacy Update",
    summary := "A long summary about the new browser privacy update.",
    source := "Reuters", url := "https://example.org/browser",
    publishedAt := 1700000500000, category := "technology", image := none,
    sourceHash := "hash-c2", isActive := true }

/-- Cache state whose technology list is populated and non-expired, holding
`cachedTechArticle`. -/
def techCacheState : RedisState :=
  { kv := [("news:idc1", cachedTechArticle, 3600)],
    lists := [("news:category:technology", { items := ["idc1"], ttl := some 3600 })] }

/-- Cache state whose `news:latest` list is populated, holding
`cachedTechArticle`. -/
def latestCacheState : RedisState :=
  { kv := [("news:idc1", cachedTechArticle, 3600)],
    lists := [("news:latest", { items := ["idc1"], ttl := none })] }

lemma dbCategoryQuery_singleton :
    dbCategoryQuery [storedTechArticle] "technology" 20 0 = [storedTechArticle] := by
  unfold dbCategoryQuery
  rw [show [storedTechArticle].filter
      (fun n => decide (n.category = "technology") && n.isActive) = [storedTechArticle]
    from by decide]
  simp [List.mergeSort]

/-- C8 counterexample: with a populated, non-expired per-topic cache holding
`cachedTechArticle`, `getNewsByCategory` still answers from the durable
store — it returns the stored article, not the cached one — refuting the
claim that the by-topic read prefers the recency cache. -/
theorem read_path_counterexample :
    getNewsByCategory (some techCacheState) [storedTechArticle] "technology" 20 0 =
      Except.ok [storedTechArticle] ∧
    getNewsByCategory (some techCacheState) [storedTechArticle] "technology" 20 0 ≠
      Except.ok [cachedTechArticle] ∧
    listsGet techCacheState "news:category:technology" =
      some { items := ["idc1"], ttl := some 3600 } ∧
    kvGet techCacheState "news:idc1" = some cachedTechArticle := by
  refine ⟨?_, ?_, by decide, by decide⟩
  · unfold getNewsByCategory
    rw [dbCategoryQuery_singleton]
  · unfold getNewsByCategory
    rw [dbCategoryQuery_singleton]
    intro h
    have := Except.ok.inj h
    have hne : storedTechArticle ≠ cachedTechArticle := by decide
    exact hne (List.cons.inj this).1

/-- C8 (amended): `getLatestNews` prefers the recency cache exactly when the
client is present, no command fails, the id slice of `news:latest` is
non-empty and at least one id resolves to a cached item; in every other
successful run — empty id slice, or non-empty id slice none of whose ids
resolves (the state reached once the 1-hour `setEx` keys have expired while
the untrimmed, never-expiring `news:latest` ids remain), or no client at
all — it queries the durable store filtered to active articles, ordered by
`publishedAt` descending, with the given limit and offset;
`getNewsByCategory` always performs that durable-store query (filtered
additionally by category) no matter the cache state. -/
theorem read_path_amended (st : RedisState) (db : List Article)
    (category : String) (limit offset : Nat) :
    (0 < (rLRange st "news:latest" offset (offset + limit - 1)).length →
      0 < ((rLRange st "news:latest" offset (offset + limit - 1)).filterMap
          (fun id => kvGet st ("news:" ++ id))).length →
      getLatestNews (some st) false db limit offset =
        Except.ok ((rLRange st "news:latest" offset (offset + limit - 1)).filterMap
          (fun id => kvGet st ("news:" ++ id)))) ∧
    ((rLRange st "news:latest" offset (offset + limit - 1)).length = 0 →
      getLatestNews (some st) false db limit offset =
        Except.ok (dbLatestQuery db limit offset)) ∧
    (0 < (rLRange st "news:latest" offset (offset + limit - 1)).length →
      ((rLRange st "news:latest" offset (offset + limit - 1)).filterMap
          (fun id => kvGet st ("news:" ++ id))).length = 0 →
      getLatestNews (some st) false db limit offset =
        Except.ok (dbLatestQuery db limit offset)) ∧
    (∀ cf, getLatestNews none cf db limit offset =
      Except.ok (dbLatestQuery db limit offset)) ∧
    (∀ redis, getNewsByCategory redis db category limit offset =
      Except.ok (dbCategoryQuery db category limit offset)) := by
  refine ⟨?_, ?_, ?_, fun _ => rfl, fun _ => rfl⟩
  · intro h1 h2
    show (if 0 < (rLRange st "news:latest" offset (offset + limit - 1)).length then _ else _) = _
    rw [if_pos h1, if_pos h2]
  · intro h1
    show (if 0 < (rLRange st "news:latest" offset (offset + limit - 1)).length then _ else _) = _
    rw [if_neg (by omega)]
  · intro h1 h2
    show (if 0 < (rLRange st "news:latest" offset (offset + limit - 1)).length then _ else _) = _
    rw [if_pos h1, if_neg (by omega)]

/-- Cache state one hour after the last insert: the never-expiring
`news:latest` list still holds an id, but the `setEx` item key it points to
has expired (expiry here modelled as key absence), so no id resolves. -/
def expiredItemsCacheState : RedisState :=
  { kv := [],
    lists := [("news:latest", { items := ["idc1"], ttl := none })] }

/-- Witness for the amended C8: a populated `news:latest` cache serves the
cached article, and a `news:latest` slice whose item keys have all expired
falls back to the durable store. -/
theorem read_path_amended_witness :
    getLatestNews (some latestCacheState) false [] 20 0 =
      Except.ok [cachedTechArticle] ∧
    getLatestNews (some expiredItemsCacheState) false [storedTechArticle] 20 0 =
      Except.ok (dbLatestQuery [storedTechArticle] 20 0) := by
  constructor
  · have h := (read_path_amended latestCacheState [] "technology" 20 0).1
      (by decide) (by decide)
    rw [h]
    exact congrArg Except.ok (by decide)
  · exact (read_path_amended expiredItemsCacheState [storedTechArticle]
      "technology" 20 0).2.2.1 (by decide) (by decide)

lemma dbLatestQuery_singleton :
    dbLatestQuery [storedTechArticle] 20 0 = [storedTechArticle] := by
  unfold dbLatestQuery
  rw [show [storedTechArticle].filter (fun n => n.isActive) = [storedTechArticle]
    from by decide]
  simp [List.mergeSort]

/-- C9 counterexample: with a connected client and a Redis command that
throws, `getLatestNews` surfaces an error to the caller instead of falling
back to the durable store, whose result was available — refuting the claim
that a failing cache degrades reads silently. -/
theorem cache_failure_counterexample :
    getLatestNews (some latestCacheState) true [storedTechArticle] 20 0 =
      Except.error "Redis command failed" ∧
    dbLatestQuery [storedTechArticle] 20 0 = [storedTechArticle] :=
  ⟨rfl, dbLatestQuery_singleton⟩

/-- C9 (amended): an ABSENT cache client degrades `getLatestNews` silently to
the durable store, but an error thrown by a Redis command during the read is
rethrown to the caller; a cache failure during the post-insert cache write
inside `saveNews` is swallowed by `cacheNews`'s own catch and changes
neither which articles are persisted nor which are reported as inserted. -/
theorem cache_failure_policy (db : List Article) (cache cache' : RedisState)
    (items : List Article) (limit offset : Nat) :
    (∀ cf, getLatestNews none cf db limit offset =
      Except.ok (dbLatestQuery db limit offset)) ∧
    (∀ st, getLatestNews (some st) true db limit offset =
      Except.error "Redis command failed") ∧
    (saveNews true db cache items).db = (saveNews false db cache' items).db ∧
    (saveNews true db cache items).saved = (saveNews false db cache' items).saved := by
  refine ⟨fun _ => rfl, fun _ => rfl, ?_, ?_⟩
  · exact (saveNews_ignores_cacheFails items db cache cache').1
  · exact (saveNews_ignores_cacheFails items db cache cache').2

/-- State of `NewsScheduler` together with a count of adapter (per-source)
invocations performed: `isRunning` is the overlap-guard flag of
`NewsScheduler`; `adapterInvocations` counts how many per-source fetches
`fetchAllNews` has started. -/
structure SchedulerState where
  isRunning : Bool
  adapterInvocations : Nat
deriving DecidableEq, Repr

/-- Number of configured sources in `NewsService.sources` (BBC, Reuters, The
Guardian): each non-skipped cycle iterates all of them. -/
def sourcesCount : Nat := 3

/-- Events of the guarded cron callback in `NewsScheduler.start`: `trigger`
is the cron job firing the callback; `finish failed` is the cycle's
`fetchAllNews` promise settling, with `failed` covering the `catch` branch
(fetch rejected, e.g. every adapter failed), after which the `finally` block
runs. -/
inductive SchedulerEvent
  | trigger
  | finish (failed : Bool)
deriving DecidableEq, Repr

/-- Small-step semantics of the guarded callback: a trigger with the flag set
logs and returns — no state change, nothing queued; a trigger with the flag
clear sets the flag and starts the cycle, invoking every configured source
adapter; a finish always clears the flag through the `finally` block,
whether or not the fetch failed. -/
def schedulerStep (s : SchedulerState) : SchedulerEvent → SchedulerState
  | SchedulerEvent.trigger =>
    if s.isRunning then s
    else { isRunning := true, adapterInvocations := s.adapterInvocations + sourcesCount }
  | SchedulerEvent.finish _ => { s with isRunning := false }

/-- C7: a trigger firing while the in-progress flag is set is a complete
no-op — the state is unchanged, so zero additional adapter invocations occur
and nothing is queued — and the flag is clear after every cycle end,
including one whose fetch failed. -/
theorem coordinator_overlap_guard (s : SchedulerState) :
    (s.isRunning = true → schedulerStep s SchedulerEvent.trigger = s) ∧
    (s.isRunning = true →
      (schedulerStep s SchedulerEvent.trigger).adapterInvocations = s.adapterInvocations) ∧
    (∀ failed, (schedulerStep s (SchedulerEvent.finish failed)).isRunning = false) := by
  refine ⟨?_, ?_, fun _ => rfl⟩
  · intro h
    simp [schedulerStep, h]
  · intro h
    simp [schedulerStep, h]

/-- Witness for C7 at a mid-cycle state: the second trigger changes nothing,
and a failed cycle still clears the flag. -/
theorem coordinator_overlap_guard_witness :
    schedulerStep { isRunning := true, adapterInvocations := 3 } SchedulerEvent.trigger =
      { isRunning := true, adapterInvocations := 3 } ∧
    (schedulerStep { isRunning := true, adapterInvocations := 3 }
      (SchedulerEvent.finish true)).isRunning = false := by
  constructor
  · exact (coordinator_overlap_guard { isRunning := true, adapterInvocations := 3 }).1 rfl
  · exact (coordinator_overlap_guard { isRunning := true, adapterInvocations := 3 }).2.2 true

/-- One notification delivered by the fanout publisher: the batch
notification `news:update` to all subscribers (carrying the batch size), or
a per-item `news:category_update` to the room of the item's topic. -/
inductive Emission
  | allSubscribers (count : Nat)
  | toTopic (category : String)
deriving DecidableEq, Repr

/-- Emissions attempted by the `try` block of `broadcastNews`: one batch
notification to every client, then one per-item notification to each item's
category room, in item order. -/
def broadcastPlan (newsItems : List Article) : List Emission :=
  Emission.allSubscribers newsItems.length ::
    newsItems.map (fun n => Emission.toTopic n.category)

/-- Embedding of `socketHandler.broadcastNews`.  `io` is the module-level
Socket.IO server, `none` before `initializeSocket` runs: the guard
`if (!io) return;` exits at once having emitted nothing.  `failAfter`
selects a run in which the transport throws after that many successful
emits; the surrounding `catch` logs the error and returns normally, so the
result is always the list of emissions actually delivered, never an
`Except.error`. -/
def broadcastNews (io : Option Unit) (failAfter : Option Nat)
    (newsItems : List Article) : Except String (List Emission) :=
  match io with
  | none => Except.ok []
  | some _ =>
    match failAfter with
    | none => Except.ok (broadcastPlan newsItems)
    | some k => Except.ok ((broadcastPlan newsItems).take k)

/-- C10: calling the fanout broadcast before the WebSocket server has been
initialized is a total no-op at the public interface — nothing is emitted
and no error is raised — and any transport error during emission is caught
internally, so `broadcastNews` never returns an error for any input. -/
theorem broadcast_uninitialized_noop :
    (∀ failAfter newsItems, broadcastNews none failAfter newsItems = Except.ok []) ∧
    (∀ io failAfter newsItems, ∃ sent,
      broadcastNews io failAfter newsItems = Except.ok sent) := by
  constructor
  · intro failAfter newsItems
    rfl
  · intro io failAfter newsItems
    cases io with
    | none => exact ⟨[], rfl⟩
    | some u =>
      cases failAfter with
      | none => exact ⟨broadcastPlan newsItems, rfl⟩
      | some k => exact ⟨(broadcastPlan newsItems).take k, rfl⟩
